import Mathlib

/-!
Shallow embedding of the tic-tac-toe finite state machine implemented in
`src/main.ts`, together with theorems checking the specification's claims
about the board model, the win evaluator and the transition engine.

Translation conventions:
* TypeScript `null` cells become `Option.none`; a claimed cell is `some p`.
* The `Board` tuple type `[[Square,Square,Square],…]` becomes a structure
  with nine `Square` fields `c00 … c22` in row-major order (`cYX`).
* The win scanners' `for` loops are unrolled (three fixed iterations).
* The asynchronous input collaborator is modelled by a list of integers,
  one per line the player enters; a call that would block forever (the
  promise of `getSelection` never resolving) is modelled by the result
  `StepResult.hung`, and `terminate` (process exit) by `StepResult.halted`.
* In-place mutation of the board by `updateBoard` is modelled explicitly:
  `updateBoard` returns the function result, and `updateBoardCallerBoard`
  gives the contents of the caller's board object after the call (the
  source aliases it via `const updated = on` and assigns through it).
-/

namespace TicTacToe

/-- Player symbol, `type Player = "X" | "O"` (src/main.ts line 11). -/
inductive Player where
  | X
  | O
deriving DecidableEq, Repr

/-- A cell of the board: `type Square = Empty | Claimed` where `Empty = null`
(src/main.ts lines 8, 12, 17).  `none` is the empty cell. -/
abbrev Square := Option Player

/-- The 3×3 board, `type Board` (src/main.ts lines 19-22); field `cYX` is
row `Y`, column `X` (the source indexes `board[y][x]`). -/
structure Board where
  c00 : Square
  c01 : Square
  c02 : Square
  c10 : Square
  c11 : Square
  c12 : Square
  c20 : Square
  c21 : Square
  c22 : Square
deriving DecidableEq, Repr

/-- The nine cells in row-major reading order, as produced by
`board.flat()` and by the nested `forEach` loops of the source. -/
def cells (bd : Board) : List Square :=
  [bd.c00, bd.c01, bd.c02, bd.c10, bd.c11, bd.c12, bd.c20, bd.c21, bd.c22]

/-- `newBoard()` (src/main.ts lines 145-151): the fresh empty board. -/
def newBoard : Board :=
  ⟨none, none, none, none, none, none, none, none, none⟩

/-- `type Space = 1 | 2 | … | 9` (src/main.ts lines 26-27). -/
inductive Space where
  | s1 | s2 | s3 | s4 | s5 | s6 | s7 | s8 | s9
deriving DecidableEq, Repr

/-- The integer value 1-9 denoted by a `Space`. -/
def spaceToNat : Space → Nat
  | .s1 => 1
  | .s2 => 2
  | .s3 => 3
  | .s4 => 4
  | .s5 => 5
  | .s6 => 6
  | .s7 => 7
  | .s8 => 8
  | .s9 => 9

/-- The same value as an `Int`, as handed over by the input collaborator. -/
def spaceToInt (s : Space) : Int :=
  (spaceToNat s : Int)

/-- The range check and cast performed inside `getSelection`
(src/main.ts lines 128-132): `if (parsed < 1 || parsed > 9) throw`, else
`parsed as Space`.  Out of range yields `none`. -/
def spaceOfInt (i : Int) : Option Space :=
  if i < 1 ∨ 9 < i then none
  else if i = 1 then some .s1
  else if i = 2 then some .s2
  else if i = 3 then some .s3
  else if i = 4 then some .s4
  else if i = 5 then some .s5
  else if i = 6 then some .s6
  else if i = 7 then some .s7
  else if i = 8 then some .s8
  else some .s9

/-- The coordinate record `{ y, x }` returned by `getPosition`
(src/main.ts line 225); `y` is the row index and `x` the column index. -/
structure Pos where
  y : Nat
  x : Nat
deriving DecidableEq, Repr

/-- `getPosition` (src/main.ts lines 225-237): the fixed Space → (row, column)
table, transcribed case by case from the `switch`. -/
def getPosition : Space → Pos
  | .s1 => ⟨0, 0⟩
  | .s2 => ⟨0, 1⟩
  | .s3 => ⟨0, 2⟩
  | .s4 => ⟨1, 0⟩
  | .s5 => ⟨1, 1⟩
  | .s6 => ⟨1, 2⟩
  | .s7 => ⟨2, 0⟩
  | .s8 => ⟨2, 1⟩
  | .s9 => ⟨2, 2⟩

/-- Reading `board[p.y][p.x]`.  Coordinates outside the 3×3 grid never arise
from `getPosition`; they are mapped to `none` to keep the function total. -/
def Board.getPos (bd : Board) (p : Pos) : Square :=
  match p.y, p.x with
  | 0, 0 => bd.c00
  | 0, 1 => bd.c01
  | 0, 2 => bd.c02
  | 1, 0 => bd.c10
  | 1, 1 => bd.c11
  | 1, 2 => bd.c12
  | 2, 0 => bd.c20
  | 2, 1 => bd.c21
  | 2, 2 => bd.c22
  | _, _ => none

/-- The functional effect of the assignment `board[p.y][p.x] = v`.
Coordinates outside the grid (never produced by `getPosition`) leave the
board unchanged. -/
def Board.setPos (bd : Board) (p : Pos) (v : Square) : Board :=
  match p.y, p.x with
  | 0, 0 => { bd with c00 := v }
  | 0, 1 => { bd with c01 := v }
  | 0, 2 => { bd with c02 := v }
  | 1, 0 => { bd with c10 := v }
  | 1, 1 => { bd with c11 := v }
  | 1, 2 => { bd with c12 := v }
  | 2, 0 => { bd with c20 := v }
  | 2, 1 => { bd with c21 := v }
  | 2, 2 => { bd with c22 := v }
  | _, _ => bd

/-- `isEmpty` (src/main.ts lines 246-249): the cell at the space's mapped
position holds no symbol. -/
def isEmpty (bd : Board) (s : Space) : Bool :=
  decide (bd.getPos (getPosition s) = none)

/-- One step of the `forEach` scan in `isBoardFull`: the mutable flag
`full` is cleared whenever a `null` cell is seen. -/
def fullStep (full : Bool) (c : Square) : Bool :=
  if c = none then false else full

/-- `isBoardFull` (src/main.ts lines 257-269): fold the flag update over the
nine cells in the source's iteration order, starting from `true`. -/
def isBoardFull (bd : Board) : Bool :=
  (cells bd).foldl fullStep true

/-- Result type of `updateBoard` (src/main.ts line 277):
`Board | { error: string }`. -/
inductive UpdateResult where
  | ok (board : Board)
  | error (msg : String)
deriving DecidableEq, Repr

/-- `updateBoard` (src/main.ts lines 277-289): reject an occupied space with
the error record, otherwise write the symbol at the mapped position. -/
def updateBoard (symbol : Player) (s : Space) (bd0 : Board) : UpdateResult :=
  if isEmpty bd0 s = false then
    .error ("Can't update non-empty space, " ++ toString (spaceToNat s)
      ++ " is already occupied.")
  else
    .ok (bd0.setPos (getPosition s) (some symbol))

/-- Contents of the caller's board object after `updateBoard` returns.  The
source writes `const updated = on; updated[point.y][point.x] = symbol`, so on
the success path the caller's aliased board is mutated in place; on the error
path the function returns before the assignment and the board is untouched. -/
def updateBoardCallerBoard (symbol : Player) (s : Space) (bd0 : Board) : Board :=
  if isEmpty bd0 s = false then bd0
  else bd0.setPos (getPosition s) (some symbol)

/-- `hasWinnerHorizontal` (src/main.ts lines 169-179), the three-row loop
unrolled; each guard is the source condition
`col1 == col2 && col2 == col3 && col1 != null`. -/
def hasWinnerHorizontal (bd : Board) : Option Player :=
  if bd.c00 = bd.c01 ∧ bd.c01 = bd.c02 ∧ bd.c00 ≠ none then bd.c00
  else if bd.c10 = bd.c11 ∧ bd.c11 = bd.c12 ∧ bd.c10 ≠ none then bd.c10
  else if bd.c20 = bd.c21 ∧ bd.c21 = bd.c22 ∧ bd.c20 ≠ none then bd.c20
  else none

/-- `hasWinnerVertical` (src/main.ts lines 188-198), the three-column loop
unrolled; column `i` reads `board[0][i]`, `board[1][i]`, `board[2][i]`. -/
def hasWinnerVertical (bd : Board) : Option Player :=
  if bd.c00 = bd.c10 ∧ bd.c10 = bd.c20 ∧ bd.c00 ≠ none then bd.c00
  else if bd.c01 = bd.c11 ∧ bd.c11 = bd.c21 ∧ bd.c01 ≠ none then bd.c01
  else if bd.c02 = bd.c12 ∧ bd.c12 = bd.c22 ∧ bd.c02 ≠ none then bd.c02
  else none

/-- `hasWinnerDiagonal` (src/main.ts lines 207-218).  Note the second guard:
the source tests the anti-diagonal `topR == origin && origin == botL` but
guards non-emptiness with `topL != null` — the top-LEFT cell — exactly as
written on line 215. -/
def hasWinnerDiagonal (bd : Board) : Option Player :=
  if bd.c00 = bd.c11 ∧ bd.c11 = bd.c22 ∧ bd.c00 ≠ none then bd.c00
  else if bd.c02 = bd.c11 ∧ bd.c11 = bd.c20 ∧ bd.c00 ≠ none then bd.c02
  else none

/-- `type TicTacToeState` (src/main.ts lines 33-37).  The draw value
`undefined` of the `winner.won` field becomes `none` in `Option Player`. -/
inductive TicTacToeState where
  | initializing
  | placing (player : Player) (board : Board)
  | evaluating (board : Board) (after : Player)
  | winner (won : Option Player) (board : Board)
deriving DecidableEq, Repr

/-- `evaluate` (src/main.ts lines 319-332): the three scans are consulted in
the order vertical, horizontal, diagonal, then the board-full draw check,
and otherwise play passes to the opponent of `after`. -/
def evaluate (board : Board) (after : Player) : TicTacToeState :=
  match hasWinnerVertical board with
  | some w => .winner (some w) board
  | none =>
    match hasWinnerHorizontal board with
    | some w => .winner (some w) board
    | none =>
      match hasWinnerDiagonal board with
      | some w => .winner (some w) board
      | none =>
        if isBoardFull board = true then .winner none board
        else .placing (if after = Player.X then Player.O else Player.X) board

/-- Outcome of one invocation of `FiniteStateMachine.transition`
(src/main.ts lines 53-90) against a finite stream of input lines:
`next s rest` — the method returned with new state `s`, inputs `rest` left;
`halted w bd` — the `winner` branch ran `terminate` and the process exited;
`hung` — an `await` never resolved (see `getSelection`). -/
inductive StepResult where
  | next (s : TicTacToeState) (rest : List Int)
  | halted (won : Option Player) (board : Board)
  | hung
deriving DecidableEq, Repr

/-- `getSelection` (src/main.ts lines 123-140) on an input stream: it asks
one question and reads exactly one line.  If the line parses to an integer
in 1-9 the promise resolves with that space and the rest of the stream; an
out-of-range integer prints an error but never resolves the promise and
never re-prompts (`rl.question`'s callback runs once), modelled as `none`;
an exhausted stream also blocks forever. -/
def getSelection (inputs : List Int) : Option (Space × List Int) :=
  match inputs with
  | [] => none
  | i :: rest =>
    match spaceOfInt i with
    | none => none
    | some s => some (s, rest)

/-- The `while(!selectionValid)` loop of the `placing` branch
(src/main.ts lines 64-79): await a selection (a blocked `getSelection`
hangs the whole invocation), then try `updateBoard`; on its error the loop
continues with the next input line, on success the state becomes
`evaluating` and the method returns. -/
def runPlacing (p : Player) (bd : Board) : List Int → StepResult
  | [] => .hung
  | i :: rest =>
    match spaceOfInt i with
    | none => .hung
    | some s =>
      match updateBoard p s bd with
      | .error _ => runPlacing p bd rest
      | .ok b2 => .next (.evaluating b2 p) rest

/-- `FiniteStateMachine.transition` (src/main.ts lines 53-90).  The
`initializing` branch assigns `placing(X, newBoard())` and — having no
`return` — falls straight through into the `placing` branch of the same
invocation; the `placing` and `evaluating` branches return; the `winner`
branch calls `terminate`, which exits the process. -/
def transition : TicTacToeState → List Int → StepResult
  | .initializing, inputs => runPlacing Player.X newBoard inputs
  | .placing p bd, inputs => runPlacing p bd inputs
  | .evaluating bd after, inputs => .next (evaluate bd after) inputs
  | .winner w bd, _ => .halted w bd

/-! Spec-side vocabulary: the predicates the claims quantify with
("completed line", "claimed cells"), stated from the spec's words. -/

/-- Three cells form a completed line of identical claimed symbols. -/
def isLine (a b c : Square) : Prop :=
  a = b ∧ b = c ∧ a ≠ none

/-- The board contains a completed line: one of the 3 rows, 3 columns, the
main diagonal (0,0)-(1,1)-(2,2) or the anti-diagonal (0,2)-(1,1)-(2,0). -/
def hasCompletedLine (bd : Board) : Prop :=
  isLine bd.c00 bd.c01 bd.c02 ∨ isLine bd.c10 bd.c11 bd.c12 ∨
  isLine bd.c20 bd.c21 bd.c22 ∨
  isLine bd.c00 bd.c10 bd.c20 ∨ isLine bd.c01 bd.c11 bd.c21 ∨
  isLine bd.c02 bd.c12 bd.c22 ∨
  isLine bd.c00 bd.c11 bd.c22 ∨ isLine bd.c02 bd.c11 bd.c20

instance (a b c : Square) : Decidable (isLine a b c) := by
  unfold isLine; infer_instance

instance (bd : Board) : Decidable (hasCompletedLine bd) := by
  unfold hasCompletedLine; infer_instance

/-- Number of claimed cells of the board. -/
def claimedCount (bd : Board) : Nat :=
  (cells bd).countP (fun c => c.isSome)

/-! Concrete boards used as test inputs and witnesses. -/

/-- Anti-diagonal (0,2)-(1,1)-(2,0) completely claimed by X, every other
cell — in particular (0,0) — empty. -/
def antiDiagBoardX : Board :=
  ⟨none, none, some Player.X,
   none, some Player.X, none,
   some Player.X, none, none⟩

/-- Column 0 completely claimed by X, all other cells empty. -/
def vertColBoardX : Board :=
  ⟨some Player.X, none, none,
   some Player.X, none, none,
   some Player.X, none, none⟩

/-- Only the centre cell (space 5) is claimed, by O. -/
def centerOBoard : Board :=
  ⟨none, none, none,
   none, some Player.O, none,
   none, none, none⟩

/-- A full board with no completed line:
X O X / X O O / O X X. -/
def drawBoard : Board :=
  ⟨some Player.X, some Player.O, some Player.X,
   some Player.X, some Player.O, some Player.O,
   some Player.O, some Player.X, some Player.X⟩

/-! Helper lemmas shared by the claim theorems. -/

/-- Feeding a space's own integer back through the range check of
`getSelection` recovers the space. -/
theorem spaceOfInt_spaceToInt (s : Space) : spaceOfInt (spaceToInt s) = some s := by
  cases s <;> rfl

/-- Once the `full` flag of `isBoardFull` is cleared it stays cleared. -/
theorem foldl_fullStep_false (l : List Square) : l.foldl fullStep false = false := by
  induction l with
  | nil => rfl
  | cons c l ih =>
    have hc : fullStep false c = false := by unfold fullStep; split <;> rfl
    rw [List.foldl_cons, hc, ih]

/-- The `forEach` scan of `isBoardFull` reports `true` exactly when no
scanned cell is empty. -/
theorem foldl_fullStep_true_iff (l : List Square) :
    l.foldl fullStep true = true ↔ ∀ c ∈ l, c ≠ none := by
  induction l with
  | nil => simp
  | cons c l ih =>
    rw [List.foldl_cons]
    by_cases hc : c = none
    · have h1 : fullStep true c = false := by unfold fullStep; simp [hc]
      rw [h1, foldl_fullStep_false]
      simp [hc]
    · have h1 : fullStep true c = true := by unfold fullStep; simp [hc]
      rw [h1, ih]
      simp [hc]

/-- A board with fewer than nine claimed cells is not reported full. -/
theorem isBoardFull_eq_false_of_claimedCount_lt (bd : Board)
    (h : claimedCount bd < 9) : isBoardFull bd = false := by
  cases hfull : isBoardFull bd with
  | false => rfl
  | true =>
    exfalso
    have hall := (foldl_fullStep_true_iff (cells bd)).mp hfull
    have h9 : claimedCount bd = 9 := by
      unfold claimedCount
      have hlen : (cells bd).length = 9 := by simp [cells]
      rw [← hlen]
      rw [List.countP_eq_length]
      intro a ha
      simpa [Option.isSome_iff_ne_none] using hall a ha
    omega

/-- On a board with no completed line the column scan finds no winner. -/
theorem hasWinnerVertical_eq_none_of_noLine (bd : Board)
    (h : ¬ hasCompletedLine bd) : hasWinnerVertical bd = none := by
  unfold hasWinnerVertical
  split_ifs with h1 h2 h3
  · exact absurd (Or.inr (Or.inr (Or.inr (Or.inl h1)))) h
  · exact absurd (Or.inr (Or.inr (Or.inr (Or.inr (Or.inl h2))))) h
  · exact absurd (Or.inr (Or.inr (Or.inr (Or.inr (Or.inr (Or.inl h3)))))) h
  · rfl

/-- On a board with no completed line the row scan finds no winner. -/
theorem hasWinnerHorizontal_eq_none_of_noLine (bd : Board)
    (h : ¬ hasCompletedLine bd) : hasWinnerHorizontal bd = none := by
  unfold hasWinnerHorizontal
  split_ifs with h1 h2 h3
  · exact absurd (Or.inl h1) h
  · exact absurd (Or.inr (Or.inl h2)) h
  · exact absurd (Or.inr (Or.inr (Or.inl h3))) h
  · rfl

/-- On a board with no completed line the diagonal scan finds no winner.
The second branch may also return the empty cell `bd.c02` itself (the
source's `return topR` when the anti-diagonal cells are all `null`), which
equals `none` as well. -/
theorem hasWinnerDiagonal_eq_none_of_noLine (bd : Board)
    (h : ¬ hasCompletedLine bd) : hasWinnerDiagonal bd = none := by
  unfold hasWinnerDiagonal
  split_ifs with h1 h2
  · exact absurd
      (Or.inr (Or.inr (Or.inr (Or.inr (Or.inr (Or.inr (Or.inl h1))))))) h
  · by_cases hc : bd.c02 = none
    · exact hc
    · exact absurd
        (Or.inr (Or.inr (Or.inr (Or.inr (Or.inr (Or.inr (Or.inr
          ⟨h2.1, h2.2.1, hc⟩))))))) h
  · rfl

/-! The claims. -/

/-- C1: the claim says every completed line is reported as a win, in
particular an anti-diagonal completely claimed by one symbol even when cell
(0,0) is empty.  Evaluating the code at exactly that board refutes it: the
anti-diagonal check of `hasWinnerDiagonal` guards non-emptiness with the
top-LEFT cell (src/main.ts line 215), so the board whose anti-diagonal is
all X and whose other cells — including (0,0) — are empty has a completed
line yet every scan returns no winner and `evaluate` hands the turn to O
instead of declaring X the winner. -/
theorem C1_code_bug_eval :
    antiDiagBoardX.c00 = none ∧
    hasCompletedLine antiDiagBoardX ∧
    hasWinnerVertical antiDiagBoardX = none ∧
    hasWinnerHorizontal antiDiagBoardX = none ∧
    hasWinnerDiagonal antiDiagBoardX = none ∧
    evaluate antiDiagBoardX Player.X =
      TicTacToeState.placing Player.O antiDiagBoardX := by decide

/-- C2 counterexample: invoked on `Initializing` with the input line `1`
waiting, `transition` does NOT stop at `Placing{X, fresh board}` with the
input untouched (the claim's description); it falls through into the
placing branch, consumes the input and ends the invocation in `Evaluating`
with X's mark already placed. -/
theorem C2_counterexample :
    transition TicTacToeState.initializing [1] ≠
      StepResult.next (TicTacToeState.placing Player.X newBoard) [1] ∧
    transition TicTacToeState.initializing [1] =
      StepResult.next (TicTacToeState.evaluating
        (newBoard.setPos (getPosition Space.s1) (some Player.X)) Player.X) [] := by
  decide

/-- C2 amended: `transition` on `Initializing` assigns
`Placing{X, fresh empty board}` and then, in the same invocation, carries
out the Placing step: for every first selection `s` (every space of the
fresh board is empty, so every in-range selection is valid) it consumes
that input and returns in `Evaluating` with X's symbol at `s` — X still
always moves first. -/
theorem C2_theorem (s : Space) (rest : List Int) :
    transition TicTacToeState.initializing (spaceToInt s :: rest) =
      StepResult.next (TicTacToeState.evaluating
        (newBoard.setPos (getPosition s) (some Player.X)) Player.X) rest := by
  cases s <;> rfl

/-- C3: the claim says an out-of-range selection is reported and another
move request is issued until a valid selection arrives.  Evaluating the
code: `getSelection` never resolves on the input `0` (or `10`), so with
input lines `[0, 5]` the whole `transition` invocation hangs and the valid
`5` is never consumed — while `[5]` alone advances normally.  The retry
loop of the claim does not exist for the out-of-range error. -/
theorem C3_code_bug_eval :
    getSelection [0, 5] = none ∧ getSelection [10, 5] = none ∧
    transition (TicTacToeState.placing Player.X newBoard) [0, 5] = StepResult.hung ∧
    transition (TicTacToeState.placing Player.X newBoard) [10, 5] = StepResult.hung ∧
    transition (TicTacToeState.placing Player.X newBoard) [5] =
      StepResult.next (TicTacToeState.evaluating
        (newBoard.setPos (getPosition Space.s5) (some Player.X)) Player.X) [] := by
  decide

/-- C4 counterexample: after a successful `updateBoard` of space 1 on the
fresh board, the board object the caller still references is NOT retained
unaffected — the cell at space 1 is no longer empty in it (the source
mutates through the alias `const updated = on`). -/
theorem C4_counterexample :
    isEmpty newBoard Space.s1 = true ∧
    updateBoardCallerBoard Player.X Space.s1 newBoard ≠ newBoard ∧
    isEmpty (updateBoardCallerBoard Player.X Space.s1 newBoard) Space.s1 = false := by
  decide

/-- C4 amended: for every board and empty space `s`, `updateBoard` returns
a board equal to the input except that the cell at `s`'s mapped position
is set to the mover's symbol (every other space unchanged) — but it
mutates the caller's board in place: after the call the caller's aliased
board holds those same updated contents rather than the prior board. -/
theorem C4_theorem (bd : Board) (p : Player) (s : Space)
    (h : isEmpty bd s = true) :
    updateBoard p s bd =
      UpdateResult.ok (bd.setPos (getPosition s) (some p)) ∧
    updateBoardCallerBoard p s bd = bd.setPos (getPosition s) (some p) ∧
    (bd.setPos (getPosition s) (some p)).getPos (getPosition s) = some p ∧
    ∀ t : Space, t ≠ s →
      (bd.setPos (getPosition s) (some p)).getPos (getPosition t) =
        bd.getPos (getPosition t) := by
  refine ⟨?_, ?_, ?_, ?_⟩
  · simp [updateBoard, h]
  · simp [updateBoardCallerBoard, h]
  · cases s <;> rfl
  · intro t ht
    cases s <;> cases t <;> first | exact absurd rfl ht | rfl

/-- C4 witness: the amended statement instantiated at the fresh board,
player X, space 1, with the frame condition sampled at space 2. -/
theorem C4_witness :
    isEmpty newBoard Space.s1 = true ∧
    updateBoard Player.X Space.s1 newBoard =
      UpdateResult.ok (newBoard.setPos (getPosition Space.s1) (some Player.X)) ∧
    updateBoardCallerBoard Player.X Space.s1 newBoard =
      newBoard.setPos (getPosition Space.s1) (some Player.X) ∧
    (newBoard.setPos (getPosition Space.s1) (some Player.X)).getPos
      (getPosition Space.s1) = some Player.X ∧
    (newBoard.setPos (getPosition Space.s1) (some Player.X)).getPos
      (getPosition Space.s2) = newBoard.getPos (getPosition Space.s2) :=
  ⟨by decide,
   (C4_theorem newBoard Player.X Space.s1 (by decide)).1,
   (C4_theorem newBoard Player.X Space.s1 (by decide)).2.1,
   (C4_theorem newBoard Player.X Space.s1 (by decide)).2.2.1,
   (C4_theorem newBoard Player.X Space.s1 (by decide)).2.2.2 Space.s2 (by decide)⟩

/-- C5: on every board (malformed ones included) `evaluate` composes its
result in the fixed precedence order vertical, horizontal, diagonal, draw:
a vertical winner is reported first; the horizontal scan decides only when
the vertical scan found nothing, the diagonal scan only when both earlier
scans found nothing; and when all three scans find nothing the draw fires
exactly when the board is full, otherwise the turn passes to the opponent. -/
theorem C5_theorem (bd : Board) (p : Player) :
    (∀ w, hasWinnerVertical bd = some w →
      evaluate bd p = TicTacToeState.winner (some w) bd) ∧
    (hasWinnerVertical bd = none → ∀ w, hasWinnerHorizontal bd = some w →
      evaluate bd p = TicTacToeState.winner (some w) bd) ∧
    (hasWinnerVertical bd = none → hasWinnerHorizontal bd = none →
      ∀ w, hasWinnerDiagonal bd = some w →
      evaluate bd p = TicTacToeState.winner (some w) bd) ∧
    (hasWinnerVertical bd = none → hasWinnerHorizontal bd = none →
      hasWinnerDiagonal bd = none → isBoardFull bd = true →
      evaluate bd p = TicTacToeState.winner none bd) ∧
    (hasWinnerVertical bd = none → hasWinnerHorizontal bd = none →
      hasWinnerDiagonal bd = none → isBoardFull bd = false →
      evaluate bd p =
        TicTacToeState.placing (if p = Player.X then Player.O else Player.X) bd) := by
  refine ⟨?_, ?_, ?_, ?_, ?_⟩
  · intro w hw; simp only [evaluate, hw]
  · intro hv w hw; simp only [evaluate, hv, hw]
  · intro hv hh w hw; simp only [evaluate, hv, hh, hw]
  · intro hv hh hd hf; simp only [evaluate, hv, hh, hd, hf, if_true]
  · intro hv hh hd hf; simp only [evaluate, hv, hh, hd, hf]; rfl

/-- C5 witness: the first precedence conjunct fired at the board whose
column 0 is all X. -/
theorem C5_witness :
    hasWinnerVertical vertColBoardX = some Player.X ∧
    evaluate vertColBoardX Player.X =
      TicTacToeState.winner (some Player.X) vertColBoardX :=
  ⟨by decide, (C5_theorem vertColBoardX Player.X).1 Player.X (by decide)⟩

/-- C6: on every board with fewer than nine claimed cells and no completed
line, all three win scans report no winner and `evaluate` yields a Placing
state for the opponent of the mover, carrying the very board that was
evaluated. -/
theorem C6_theorem (bd : Board) (p : Player)
    (hc : claimedCount bd < 9) (hl : ¬ hasCompletedLine bd) :
    hasWinnerVertical bd = none ∧ hasWinnerHorizontal bd = none ∧
    hasWinnerDiagonal bd = none ∧
    evaluate bd p =
      TicTacToeState.placing (if p = Player.X then Player.O else Player.X) bd := by
  have hv := hasWinnerVertical_eq_none_of_noLine bd hl
  have hh := hasWinnerHorizontal_eq_none_of_noLine bd hl
  have hd := hasWinnerDiagonal_eq_none_of_noLine bd hl
  have hf := isBoardFull_eq_false_of_claimedCount_lt bd hc
  refine ⟨hv, hh, hd, ?_⟩
  simp only [evaluate, hv, hh, hd, hf]
  rfl

/-- C6 witness: the board with only the centre claimed by O, after O's
move, hands the turn to X. -/
theorem C6_witness :
    claimedCount centerOBoard < 9 ∧ ¬ hasCompletedLine centerOBoard ∧
    evaluate centerOBoard Player.O =
      TicTacToeState.placing Player.X centerOBoard :=
  ⟨by decide, by decide,
   (C6_theorem centerOBoard Player.O (by decide) (by decide)).2.2.2⟩

/-- C7: on every full board with no completed line, `evaluate` reports the
draw — the terminal Winner state with no winning symbol, carrying that
board — and never a player. -/
theorem C7_theorem (bd : Board) (p : Player)
    (hf : isBoardFull bd = true) (hl : ¬ hasCompletedLine bd) :
    evaluate bd p = TicTacToeState.winner none bd := by
  have hv := hasWinnerVertical_eq_none_of_noLine bd hl
  have hh := hasWinnerHorizontal_eq_none_of_noLine bd hl
  have hd := hasWinnerDiagonal_eq_none_of_noLine bd hl
  simp only [evaluate, hv, hh, hd, hf, if_true]

/-- C7 witness: the full no-line board X O X / X O O / O X X is a draw. -/
theorem C7_witness :
    isBoardFull drawBoard = true ∧ ¬ hasCompletedLine drawBoard ∧
    evaluate drawBoard Player.O = TicTacToeState.winner none drawBoard :=
  ⟨by decide, by decide, C7_theorem drawBoard Player.O (by decide) (by decide)⟩

/-- C8: `getPosition` maps each of the nine spaces deterministically to
exactly the (row, column) pair of the fixed table 1→(0,0) … 9→(2,2);
`Pos.y` is the row and `Pos.x` the column. -/
theorem C8_theorem :
    getPosition Space.s1 = ⟨0, 0⟩ ∧ getPosition Space.s2 = ⟨0, 1⟩ ∧
    getPosition Space.s3 = ⟨0, 2⟩ ∧ getPosition Space.s4 = ⟨1, 0⟩ ∧
    getPosition Space.s5 = ⟨1, 1⟩ ∧ getPosition Space.s6 = ⟨1, 2⟩ ∧
    getPosition Space.s7 = ⟨2, 0⟩ ∧ getPosition Space.s8 = ⟨2, 1⟩ ∧
    getPosition Space.s9 = ⟨2, 2⟩ := by decide

/-- C9: for every board and every already-claimed space, `updateBoard`
fails with the occupied-space error and the caller's board is left
completely unchanged; during `Placing` the engine reports the error and
retries with the next input — the transition from `Placing(p, board)` on
an occupied selection is identical to the transition without it, so the
state does not advance to Evaluating on the invalid request. -/
theorem C9_theorem (bd : Board) (p : Player) (s : Space)
    (h : isEmpty bd s = false) :
    updateBoard p s bd = UpdateResult.error
      ("Can't update non-empty space, " ++ toString (spaceToNat s)
        ++ " is already occupied.") ∧
    updateBoardCallerBoard p s bd = bd ∧
    ∀ rest : List Int,
      transition (TicTacToeState.placing p bd) (spaceToInt s :: rest) =
        transition (TicTacToeState.placing p bd) rest := by
  have herr : updateBoard p s bd = UpdateResult.error
      ("Can't update non-empty space, " ++ toString (spaceToNat s)
        ++ " is already occupied.") := by
    simp [updateBoard, h]
  refine ⟨herr, by simp [updateBoardCallerBoard, h], ?_⟩
  intro rest
  show runPlacing p bd (spaceToInt s :: rest) = runPlacing p bd rest
  simp only [runPlacing, spaceOfInt_spaceToInt, herr]

/-- C9 witness: Scenario 3 of the spec — X requests space 5 while the
centre is claimed by O; the request errors, the board is untouched and the
engine goes on to consume the next input instead. -/
theorem C9_witness :
    isEmpty centerOBoard Space.s5 = false ∧
    updateBoard Player.X Space.s5 centerOBoard =
      UpdateResult.error "Can't update non-empty space, 5 is already occupied." ∧
    updateBoardCallerBoard Player.X Space.s5 centerOBoard = centerOBoard ∧
    transition (TicTacToeState.placing Player.X centerOBoard) [5, 9] =
      transition (TicTacToeState.placing Player.X centerOBoard) [9] :=
  ⟨by decide,
   (C9_theorem centerOBoard Player.X Space.s5 (by decide)).1,
   (C9_theorem centerOBoard Player.X Space.s5 (by decide)).2.1,
   (C9_theorem centerOBoard Player.X Space.s5 (by decide)).2.2 [9]⟩

/-- C10: on every board and mover, `evaluate` returns either a Winner
state or a Placing state (for the opponent, with the same board) — never
an Initializing or an Evaluating state — so the evaluating phase completes
in exactly one step. -/
theorem C10_theorem (bd : Board) (p : Player) :
    (∃ w, evaluate bd p = TicTacToeState.winner w bd) ∨
    evaluate bd p =
      TicTacToeState.placing (if p = Player.X then Player.O else Player.X) bd := by
  rcases h1 : hasWinnerVertical bd with _ | w
  case some => exact Or.inl ⟨some w, by simp only [evaluate, h1]⟩
  case none =>
  rcases h2 : hasWinnerHorizontal bd with _ | w
  case some => exact Or.inl ⟨some w, by simp only [evaluate, h1, h2]⟩
  case none =>
  rcases h3 : hasWinnerDiagonal bd with _ | w
  case some => exact Or.inl ⟨some w, by simp only [evaluate, h1, h2, h3]⟩
  case none =>
  cases h4 : isBoardFull bd with
  | true => exact Or.inl ⟨none, by simp only [evaluate, h1, h2, h3, h4, if_true]⟩
  | false => exact Or.inr (by simp only [evaluate, h1, h2, h3, h4]; rfl)

end TicTacToe
